import Mathlib

/-!
Verification of the decode pipeline of the `xpath-magic-sorcery` repository:
the recursive quadrant region search, the enhancement filters, and the
page/segment orchestration, embedded shallowly from the TypeScript sources.

Conventions of the embedding:
* JavaScript numbers holding pixel coordinates and sizes are embedded as `Nat`
  (they are nonnegative integers in every reachable state of the code).
* JavaScript truthiness on a `string | null` result (`if (result) ...`) is
  embedded by `jsTruthy`: `null` and the empty string are falsy.
* A `Promise` that can reject / code that can `throw` is embedded as
  `Except String _`; a `try { ... } catch { ... }` becomes a `match` on it.
-/

/-- A rectangular sub-region of a canvas, in pixel coordinates
(`{x, y, w, h}` as used by `scanSegment` / `recursiveSegmentScan`). -/
structure Region where
  x : Nat
  y : Nat
  w : Nat
  h : Nat
deriving DecidableEq, Repr

/-- JavaScript truthiness of a `string | null` value: `null` and `""` are
falsy, every other string is truthy. -/
def jsTruthy : Option String → Bool
  | none => false
  | some s => s ≠ ""

namespace PDFScannerTabs
/-! Embedding of the region-search functions of the tabbed PDF/URL scanner
variant (`recursiveSegmentScan` and its callers). -/

/-- Embedding of `recursiveSegmentScan(canvas, html5QrCode, x, y, width, height, depth)`.
The segment decode attempt (`scanSegment`, which never throws: it catches
internally and returns `null`) is abstracted as `decode : Region → Option
String`.  Mirrors the source: attempt the current segment; stop if
`width < 100 || height < 100 || depth > 3`; otherwise split into four
quadrants of size `halfWidth × halfHeight` (`Math.floor` halves) and try them
in order top-left, top-right, bottom-left, bottom-right, returning the first
truthy sub-result. -/
def recursiveSegmentScan (decode : Region → Option String)
    (x y width height depth : Nat) : Option String :=
  let result := decode ⟨x, y, width, height⟩
  if jsTruthy result then result
  else if width < 100 ∨ height < 100 ∨ depth > 3 then none
  else
    let halfWidth := width / 2
    let halfHeight := height / 2
    let s1 := recursiveSegmentScan decode x y halfWidth halfHeight (depth + 1)
    if jsTruthy s1 then s1 else
    let s2 := recursiveSegmentScan decode (x + halfWidth) y halfWidth halfHeight (depth + 1)
    if jsTruthy s2 then s2 else
    let s3 := recursiveSegmentScan decode x (y + halfHeight) halfWidth halfHeight (depth + 1)
    if jsTruthy s3 then s3 else
    let s4 := recursiveSegmentScan decode (x + halfWidth) (y + halfHeight) halfWidth halfHeight (depth + 1)
    if jsTruthy s4 then s4 else none
termination_by 4 - depth
decreasing_by all_goals omega

/-- The same recursion, instrumented with the ordered list of regions on which
a decode attempt is made.  First component agrees with
`recursiveSegmentScan` (proved below). -/
def recursiveSegmentScanTrace (decode : Region → Option String)
    (x y width height depth : Nat) : Option String × List Region :=
  let r : Region := ⟨x, y, width, height⟩
  let result := decode r
  if jsTruthy result then (result, [r])
  else if width < 100 ∨ height < 100 ∨ depth > 3 then (none, [r])
  else
    let halfWidth := width / 2
    let halfHeight := height / 2
    let t1 := recursiveSegmentScanTrace decode x y halfWidth halfHeight (depth + 1)
    if jsTruthy t1.1 then (t1.1, r :: t1.2) else
    let t2 := recursiveSegmentScanTrace decode (x + halfWidth) y halfWidth halfHeight (depth + 1)
    if jsTruthy t2.1 then (t2.1, r :: (t1.2 ++ t2.2)) else
    let t3 := recursiveSegmentScanTrace decode x (y + halfHeight) halfWidth halfHeight (depth + 1)
    if jsTruthy t3.1 then (t3.1, r :: (t1.2 ++ t2.2 ++ t3.2)) else
    let t4 := recursiveSegmentScanTrace decode (x + halfWidth) (y + halfHeight) halfWidth halfHeight (depth + 1)
    if jsTruthy t4.1 then (t4.1, r :: (t1.2 ++ t2.2 ++ t3.2 ++ t4.2))
    else (none, r :: (t1.2 ++ t2.2 ++ t3.2 ++ t4.2))
termination_by 4 - depth
decreasing_by all_goals omega

/-- The full traversal order of the search tree rooted at a region: the region
itself, then (if the subdivision guard allows) the traversals of the four
quadrants in source order. -/
def scanOrder (x y width height depth : Nat) : List Region :=
  ⟨x, y, width, height⟩ ::
    (if width < 100 ∨ height < 100 ∨ depth > 3 then []
     else
      scanOrder x y (width / 2) (height / 2) (depth + 1) ++
      scanOrder (x + width / 2) y (width / 2) (height / 2) (depth + 1) ++
      scanOrder x (y + height / 2) (width / 2) (height / 2) (depth + 1) ++
      scanOrder (x + width / 2) (y + height / 2) (width / 2) (height / 2) (depth + 1))
termination_by 4 - depth
decreasing_by all_goals omega

/-- Number of nodes of the search tree rooted at a `width × height` region at
`depth` (all four children of a node have the same dimensions, so the count
depends only on these three values). -/
def scanCount (width height depth : Nat) : Nat :=
  1 + (if width < 100 ∨ height < 100 ∨ depth > 3 then 0
       else 4 * scanCount (width / 2) (height / 2) (depth + 1))
termination_by 4 - depth
decreasing_by all_goals omega

/-- First truthy decode result along a list of regions, in order
(the value returned is the decode result itself). -/
def firstHit (decode : Region → Option String) : List Region → Option String
  | [] => none
  | r :: rs => if jsTruthy (decode r) then decode r else firstHit decode rs

/-- The ordered prefix of a region list that is actually attempted when
decoding stops at the first truthy result. -/
def takeThru (decode : Region → Option String) : List Region → List Region
  | [] => []
  | r :: rs => if jsTruthy (decode r) then [r] else r :: takeThru decode rs

/-- The value `searchTreeBound n` is the node count of a complete 4-ary tree of height
`n`: an upper bound for the search tree spanned from a node `n` levels above
the depth cutoff.  `searchTreeBound 4 = 1 + 4 + 16 + 64 + 256 = 341`. -/
def searchTreeBound : Nat → Nat
  | 0 => 1
  | n + 1 => 1 + 4 * searchTreeBound n

/-- The `segments` array built by `recursiveSegmentScan` when subdividing a
region: four quadrants, all of size `halfWidth × halfHeight` with
`halfWidth = Math.floor(width / 2)`, `halfHeight = Math.floor(height / 2)`,
in source order top-left, top-right, bottom-left, bottom-right. -/
def segments (x y width height : Nat) : List Region :=
  let halfWidth := width / 2
  let halfHeight := height / 2
  [⟨x, y, halfWidth, halfHeight⟩,
   ⟨x + halfWidth, y, halfWidth, halfHeight⟩,
   ⟨x, y + halfHeight, halfWidth, halfHeight⟩,
   ⟨x + halfWidth, y + halfHeight, halfWidth, halfHeight⟩]

/-- Pixel `(px, py)` lies inside region `r`. -/
def containsPoint (r : Region) (px py : Nat) : Prop :=
  r.x ≤ px ∧ px < r.x + r.w ∧ r.y ≤ py ∧ py < r.y + r.h

instance (r : Region) (px py : Nat) : Decidable (containsPoint r px py) := by
  unfold containsPoint
  infer_instance

/-- A canvas, reduced to its pixel dimensions. -/
structure Canvas where
  width : Nat
  height : Nat

/-- User-facing classification of a finished decode request (§3 of the spec:
`DecodeOutcome`).  `decoderFault` stands for the error-toast path taken when
an exception escapes to the orchestrator's catch block, as distinct from the
"no QR code found" toast. -/
inductive DecodeOutcome where
  | success : String → DecodeOutcome
  | noCodeFound : DecodeOutcome
  | decoderFault : DecodeOutcome
deriving DecidableEq, Repr

/-- Embedding of `scanSegment(canvas, html5QrCode, x, y, width, height)`: crop the region,
run `preprocessImage` on it (which may reject), then `html5QrCode.scanFile`
(which may reject).  The whole body is inside `try { ... } catch (error)
{ console.log(...); return null; }`, so ANY rejection — including one thrown
by the enhancement step — yields `null`. -/
def scanSegment {α : Type} (preprocess : Region → Except String α)
    (scanFile : α → Except String String) (r : Region) : Option String :=
  match preprocess r with
  | .error _ => none
  | .ok processedSegment =>
    match scanFile processedSegment with
    | .error _ => none
    | .ok qrCodeMessage => some qrCodeMessage

/-- Embedding of `scanFullImage(canvas, html5QrCode)`: the same pipeline applied to the
whole canvas, with the same catch-all returning `null`. -/
def scanFullImage {α : Type} (preprocess : Region → Except String α)
    (scanFile : α → Except String String) (canvas : Canvas) : Option String :=
  scanSegment preprocess scanFile ⟨0, 0, canvas.width, canvas.height⟩

/-- The decode portion of `handleFileUpload` (after the PDF type check):
convert the PDF to a canvas (may throw → caught by the inner catch, error
toast = `decoderFault`-class), try the full image, then the recursive
segment scan; a falsy result of both is the "No QR code found" toast
(`noCodeFound`). -/
def handleFileUpload {α : Type} (convert : Except String Canvas)
    (preprocess : Region → Except String α)
    (scanFile : α → Except String String) : DecodeOutcome :=
  match convert with
  | .error _ => DecodeOutcome.decoderFault
  | .ok canvas =>
    let fullImageResult := scanFullImage preprocess scanFile canvas
    if jsTruthy fullImageResult then
      DecodeOutcome.success (fullImageResult.getD "")
    else
      let qrCodeMessage :=
        recursiveSegmentScan (scanSegment preprocess scanFile)
          0 0 canvas.width canvas.height 0
      if jsTruthy qrCodeMessage then
        DecodeOutcome.success (qrCodeMessage.getD "")
      else DecodeOutcome.noCodeFound

end PDFScannerTabs

namespace PDFInvoiceScannerTsx
/-! Embedding of the multi-page loop of `convertPDFToImage` in
`src/pages/PDFInvoiceScanner.tsx`: `for (let pageNum = 1; pageNum <=
totalPages; pageNum++)`, one `html5QrCode.scanFile` attempt per rendered
page (in a try whose catch logs and continues), returning on the first page
whose message satisfies `qrCodeMessage && qrCodeMessage.length > 0`, and
throwing `"No QR code found in any page"` after the loop. -/

/-- The loop from `pageNum` with `remaining` pages left (`remaining =
totalPages - pageNum + 1`).  Second component: the ordered list of pages on
which a scan attempt was made. -/
def scanPagesFrom (scanPage : Nat → Except String String) (pageNum : Nat) :
    Nat → Except String Nat × List Nat
  | 0 => (.error "No QR code found in any page", [])
  | remaining + 1 =>
    match scanPage pageNum with
    | .ok qrCodeMessage =>
      -- `if (qrCodeMessage && qrCodeMessage.length > 0) return canvas;`
      if qrCodeMessage.length > 0 then (.ok pageNum, [pageNum])
      else
        let rest := scanPagesFrom scanPage (pageNum + 1) remaining
        (rest.1, pageNum :: rest.2)
    | .error _ =>
      -- catch: `console.warn(...)` and continue with the next page
      let rest := scanPagesFrom scanPage (pageNum + 1) remaining
      (rest.1, pageNum :: rest.2)

/-- Embedding of `convertPDFToImage`, abstracted over the external render+scan of a single
page.  Returns the 1-based index of the page whose canvas is returned, or
the thrown error; paired with the ordered attempt log. -/
def convertPDFToImage (totalPages : Nat)
    (scanPage : Nat → Except String String) : Except String Nat × List Nat :=
  scanPagesFrom scanPage 1 totalPages

/-- Whether the single scan attempt on page `p` succeeds with a nonempty
payload. -/
def pageHit (scanPage : Nat → Except String String) (p : Nat) : Bool :=
  match scanPage p with
  | .ok msg => msg.length > 0
  | .error _ => false

/-- Pages attempted when stopping at the first hit. -/
def attemptedPages (hit : Nat → Bool) : List Nat → List Nat
  | [] => []
  | p :: ps => if hit p then [p] else p :: attemptedPages hit ps

end PDFInvoiceScannerTsx

namespace ImageProcessing
/-! Embedding of `src/utils/imageProcessing.ts`.

Pixel data of a canvas (`Uint8ClampedArray`, RGBA row-major) is modeled as a
total function from coordinates and channel (0 = R, 1 = G, 2 = B, 3 = A) to
an exact rational byte value.  The typed array's store quantization (round
to nearest integer, clamp to [0,255]) maps [0,255] into itself and fixes 0
and 255, so the range, idempotence and frame properties proved below are
insensitive to it; the per-filter arithmetic is carried out exactly.
`Math.pow` and `Math.sqrt` are host float primitives external to the
repository; they enter the embedding as function parameters (`powf`,
`sqrtf`), constrained in the theorems only by the properties the real
functions enjoy. -/

/-- Channel `c` of the pixel at `(x, y)`, as an exact rational byte. -/
def Image : Type := Nat → Nat → Nat → ℚ

/-- The 3×3 Gaussian sum of `reduceNoise` at an interior pixel: kernel
`[[1,2,1],[2,4,2],[1,2,1]] / 16` over the snapshot `tempData`. -/
def reduceNoiseAt (img : Image) (x y c : Nat) : ℚ :=
  img (x - 1) (y - 1) c * (1/16) + img x (y - 1) c * (2/16) + img (x + 1) (y - 1) c * (1/16) +
  img (x - 1) y c * (2/16) + img x y c * (4/16) + img (x + 1) y c * (2/16) +
  img (x - 1) (y + 1) c * (1/16) + img x (y + 1) c * (2/16) + img (x + 1) (y + 1) c * (1/16)

/-- Embedding of `reduceNoise(data, width, height)`: radius-1 Gaussian blur of the three
color channels of every interior pixel (`radius <= x < width - radius`,
likewise for `y`), reading from the `tempData` snapshot; all other bytes
(borders and the alpha channel) are left untouched. -/
def reduceNoise (width height : Nat) (img : Image) : Image := fun x y c =>
  if 1 ≤ x ∧ x + 1 < width ∧ 1 ≤ y ∧ y + 1 < height ∧ c < 3 then
    reduceNoiseAt img x y c
  else img x y c

/-- Embedding of `enhanceContrast(data, width, height)`: per color channel of every pixel,
normalize to [0,1], apply `Math.pow(·, 1.2)` (the `powf` parameter), rescale
to [0,255].  The alpha channel is not written. -/
def enhanceContrast (powf : ℚ → ℚ) (img : Image) : Image := fun x y c =>
  if c < 3 then powf (img x y c / 255) * 255 else img x y c

/-- Horizontal Sobel response of `applyEdgeDetection` at an interior pixel:
kernel `[[-1,0,1],[-2,0,2],[-1,0,1]]`, applied to the red channel of the
`tempData` snapshot. -/
def sobelGradX (img : Image) (x y : Nat) : ℚ :=
  -img (x - 1) (y - 1) 0 + img (x + 1) (y - 1) 0
  - 2 * img (x - 1) y 0 + 2 * img (x + 1) y 0
  - img (x - 1) (y + 1) 0 + img (x + 1) (y + 1) 0

/-- Vertical Sobel response: kernel `[[-1,-2,-1],[0,0,0],[1,2,1]]` on the red
channel of the snapshot. -/
def sobelGradY (img : Image) (x y : Nat) : ℚ :=
  -img (x - 1) (y - 1) 0 - 2 * img x (y - 1) 0 - img (x + 1) (y - 1) 0
  + img (x - 1) (y + 1) 0 + 2 * img x (y + 1) 0 + img (x + 1) (y + 1) 0

/-- Embedding of `applyEdgeDetection(data, width, height)`: at every interior pixel, the
gradient magnitude `Math.sqrt(gradX² + gradY²)` (the `sqrtf` parameter),
explicitly capped at 255 (`magnitude > 255 ? 255 : magnitude`), written to
R, G and B; borders and alpha untouched. -/
def applyEdgeDetection (sqrtf : ℚ → ℚ) (width height : Nat) (img : Image) :
    Image := fun x y c =>
  if 1 ≤ x ∧ x + 1 < width ∧ 1 ≤ y ∧ y + 1 < height ∧ c < 3 then
    let gradX := sobelGradX img x y
    let gradY := sobelGradY img x y
    let magnitude := sqrtf (gradX * gradX + gradY * gradY)
    if magnitude > 255 then 255 else magnitude
  else img x y c

/-- The luminance expression of `adaptiveThreshold`:
`data[i] * 0.299 + data[i+1] * 0.587 + data[i+2] * 0.114`. -/
def luminanceAt (img : Image) (x y : Nat) : ℚ :=
  img x y 0 * 0.299 + img x y 1 * 0.587 + img x y 2 * 0.114

/-- Embedding of `adaptiveThreshold(data, width, height)`: for every pixel, binarize the
three color channels against the fixed threshold 160 by the weighted
luminance; alpha untouched.  (Despite the name, the threshold is global.) -/
def adaptiveThreshold (img : Image) : Image := fun x y c =>
  if c < 3 then
    if luminanceAt img x y > 160 then 255 else 0
  else img x y c

/-- The in-place filter chain of `preprocessImage` (lines 22-25 of
`imageProcessing.ts`): `reduceNoise`, `enhanceContrast`,
`applyEdgeDetection`, `adaptiveThreshold`, in that order. -/
def preprocessPixels (powf sqrtf : ℚ → ℚ) (width height : Nat) (img : Image) :
    Image :=
  adaptiveThreshold
    (applyEdgeDetection sqrtf width height
      (enhanceContrast powf
        (reduceNoise width height img)))

end ImageProcessing

namespace Part006
/-! Embedding of the sharpening/thresholding helpers of the
`preprocessImage` variant with `applyConvolution` and
`applyAdaptiveThreshold`. -/

open ImageProcessing (Image)

/-- The store semantics of a `Uint8ClampedArray` write, minus the
(range-preserving) integer quantization: values below 0 store as 0, above
255 as 255.  For the sharpen kernel the raw convolution sum does leave
[0,255], so this clamping is an essential part of the write. -/
def clampByte (q : ℚ) : ℚ := max 0 (min 255 q)

/-- The sharpening kernel `[0, -1, 0, -1, 5, -1, 0, -1, 0]` passed to
`applyConvolution` (row-major, indexed by `(ky + 1) * 3 + (kx + 1)`). -/
def sharpenKernel : Nat → ℚ := fun i =>
  [0, -1, 0, -1, 5, -1, 0, -1, 0].getD i 0

/-- Embedding of `applyConvolution(imageData, kernel)`: 3×3 convolution of each color
channel of every interior pixel over the `output` snapshot copy, stored
through the clamped byte write; borders and alpha untouched. -/
def applyConvolution (kernel : Nat → ℚ) (width height : Nat) (img : Image) :
    Image := fun x y c =>
  if 1 ≤ x ∧ x + 1 < width ∧ 1 ≤ y ∧ y + 1 < height ∧ c < 3 then
    clampByte
      (img (x - 1) (y - 1) c * kernel 0 + img x (y - 1) c * kernel 1 +
       img (x + 1) (y - 1) c * kernel 2 +
       img (x - 1) y c * kernel 3 + img x y c * kernel 4 +
       img (x + 1) y c * kernel 5 +
       img (x - 1) (y + 1) c * kernel 6 + img x (y + 1) c * kernel 7 +
       img (x + 1) (y + 1) c * kernel 8)
  else img x y c

/-- The grayscale pass of `applyAdaptiveThreshold` (its first loop):
`const avg = (pixels[i] + pixels[i+1] + pixels[i+2]) / 3;
 pixels[i] = pixels[i+1] = pixels[i+2] = avg;` — the UNWEIGHTED average. -/
def toGrayscaleAvg (img : Image) : Image := fun x y c =>
  if c < 3 then (img x y 0 + img x y 1 + img x y 2) / 3 else img x y c

/-- Offsets `-halfBlock .. halfBlock` in loop order. -/
def blockOffsets (halfBlock : Nat) : List Int :=
  (List.range (2 * halfBlock + 1)).map (fun i => (i : Int) - halfBlock)

/-- The in-bounds neighbors `(nx, ny)` of `(x, y)` within the block, in loop
order (`ky` outer, `kx` inner), as filtered by
`ny >= 0 && ny < height && nx >= 0 && nx < width`. -/
def blockNeighbors (width height halfBlock x y : Nat) : List (Int × Int) :=
  ((blockOffsets halfBlock).flatMap (fun ky =>
    (blockOffsets halfBlock).map (fun kx => ((x : Int) + kx, (y : Int) + ky)))).filter
    (fun p => 0 ≤ p.2 ∧ p.2 < (height : Int) ∧ 0 ≤ p.1 ∧ p.1 < (width : Int))

/-- One iteration of the thresholding loop of `applyAdaptiveThreshold` at
pixel `p`: local mean of the red channel over the clipped block of the
CURRENT buffer (the loop mutates in place, with no snapshot), then
`value = pixels[idx] > mean - C ? 255 : 0` written to R, G, B. -/
def thresholdStep (width height halfBlock : Nat) (C : ℚ) (img : Image)
    (p : Nat × Nat) : Image := fun x y c =>
  if x = p.1 ∧ y = p.2 ∧ c < 3 then
    let ns := blockNeighbors width height halfBlock p.1 p.2
    let mean := (ns.map (fun q => img q.1.toNat q.2.toNat 0)).sum / (ns.length : ℚ)
    if img p.1 p.2 0 > mean - C then 255 else 0
  else img x y c

/-- The pixels `(x, y)` of a `width × height` buffer in loop order
(`y` outer, `x` inner). -/
def rowMajor (width height : Nat) : List (Nat × Nat) :=
  (List.range height).flatMap (fun y => (List.range width).map (fun x => (x, y)))

/-- Embedding of `applyAdaptiveThreshold(imageData, blockSize = 11, C = 2)`: the grayscale
pass followed by the sequential in-place thresholding loop
(`halfBlock = Math.floor(blockSize / 2)`). -/
def applyAdaptiveThreshold (width height blockSize : Nat) (C : ℚ)
    (img : Image) : Image :=
  (rowMajor width height).foldl
    (thresholdStep width height (blockSize / 2) C)
    (toGrayscaleAvg img)

end Part006

/-- BT.601 luminance exactly as the spec fixes it:
`L = 0.299*R + 0.587*G + 0.114*B`. -/
def bt601Luminance (r g b : ℚ) : ℚ := 0.299 * r + 0.587 * g + 0.114 * b

namespace Part008
/-! Embedding of the dimension computation of the `preprocessImage` variant
with `MAX_DIMENSION = 2048`, `MIN_DIMENSION = 256`. -/

/-- The function `Math.round` on the nonnegative rationals occurring here. -/
def jsRound (q : ℚ) : ℤ := ⌊q + 1/2⌋

/-- The new canvas dimensions: downscale the larger dimension to
`MAX_DIMENSION = 2048` preserving the aspect ratio (rounded), then raise
both dimensions to at least `MIN_DIMENSION = 256`
(`width = Math.max(width, MIN_DIMENSION)`, same for height). -/
def computeDims (w h : Nat) : Nat × Nat :=
  let scaled :=
    if w > h then
      if w > 2048 then ((2048 : Nat), (jsRound ((h * 2048 : ℚ) / w)).toNat)
      else (w, h)
    else
      if h > 2048 then ((jsRound ((w * 2048 : ℚ) / h)).toNat, (2048 : Nat))
      else (w, h)
  (max scaled.1 256, max scaled.2 256)

end Part008

namespace Part009
/-! Embedding of the dimension computation of the `preprocessImage` variant
with `MAX_WIDTH = MAX_HEIGHT = 2048` and no minimum clamp. -/

/-- The new canvas dimensions: downscale the larger dimension to 2048
preserving the aspect ratio (rounded); no other change. -/
def computeDims (w h : Nat) : Nat × Nat :=
  if w > h then
    if w > 2048 then ((2048 : Nat), (Part008.jsRound ((h * 2048 : ℚ) / w)).toNat)
    else (w, h)
  else
    if h > 2048 then ((Part008.jsRound ((w * 2048 : ℚ) / h)).toNat, (2048 : Nat))
    else (w, h)

end Part009

/-- A decode stub whose first-in-traversal-order non-null answer is the empty
string on the whole 200×200 region, with a nonempty payload on the top-left
depth-1 quadrant. -/
def decodeEmptyThenHit : Region → Option String := fun r =>
  if r = ⟨0, 0, 200, 200⟩ then some ""
  else if r = ⟨0, 0, 100, 100⟩ then some "A" else none

/-- The constant-zero pixel buffer. -/
def zeroImage : ImageProcessing.Image := fun _ _ _ => 0

/-- An all-white, already-binarized buffer (all channels 255). -/
def whiteImage : ImageProcessing.Image := fun _ _ _ => 255

/-- A buffer whose every pixel is pure red `(255, 0, 0, 255)`. -/
def redImage : ImageProcessing.Image := fun _ _ c =>
  if c = 0 then 255 else if c = 3 then 255 else 0

/-- A buffer is pure black/white: R = G = B ∈ {0, 255} at every pixel. -/
def pureBlackWhite (img : ImageProcessing.Image) : Prop :=
  ∀ x y, img x y 0 = img x y 1 ∧ img x y 1 = img x y 2 ∧
    (img x y 0 = 0 ∨ img x y 0 = 255)


namespace PDFScannerTabs

theorem firstHit_append (decode : Region → Option String) (l₁ l₂ : List Region) :
    firstHit decode (l₁ ++ l₂) =
      match firstHit decode l₁ with
      | some s => some s
      | none => firstHit decode l₂ := by
  induction l₁ with
  | nil => simp [firstHit]
  | cons r rs ih =>
    by_cases h : jsTruthy (decode r)
    · simp only [List.cons_append, firstHit, h, if_pos]
      cases hd : decode r with
      | none => simp [jsTruthy, hd] at h
      | some s => simp
    · simp only [List.cons_append, firstHit, h, if_neg, Bool.false_eq_true,
        not_false_iff]
      exact ih

theorem takeThru_append (decode : Region → Option String) (l₁ l₂ : List Region) :
    takeThru decode (l₁ ++ l₂) =
      match firstHit decode l₁ with
      | some _ => takeThru decode l₁
      | none => l₁ ++ takeThru decode l₂ := by
  induction l₁ with
  | nil => simp [firstHit]
  | cons r rs ih =>
    by_cases h : jsTruthy (decode r)
    · cases hd : decode r with
      | none => simp [jsTruthy, hd] at h
      | some s =>
        rw [hd] at h
        simp [takeThru, firstHit, h, hd]
    · simp only [List.cons_append, takeThru, firstHit, h, if_neg,
        Bool.false_eq_true, not_false_iff, List.append_eq]
      rw [ih]
      cases firstHit decode rs <;> simp

theorem firstHit_some_truthy (decode : Region → Option String) :
    ∀ (l : List Region) (s : String), firstHit decode l = some s →
      jsTruthy (some s) = true := by
  intro l
  induction l with
  | nil => intro s h; exact absurd h (by simp [firstHit])
  | cons r rs ih =>
    intro s h
    by_cases hr : jsTruthy (decode r)
    · simp only [firstHit, hr, if_pos] at h
      rw [h] at hr
      exact hr
    · simp only [firstHit, hr, if_neg, Bool.false_eq_true, not_false_iff] at h
      exact ih s h

theorem takeThru_of_firstHit_none (decode : Region → Option String) :
    ∀ l : List Region, firstHit decode l = none → takeThru decode l = l := by
  intro l
  induction l with
  | nil => intro _; rfl
  | cons r rs ih =>
    intro h
    by_cases hr : jsTruthy (decode r)
    · simp only [firstHit, hr, if_pos] at h
      rw [h] at hr
      simp [jsTruthy] at hr
    · simp only [firstHit, hr, if_neg, Bool.false_eq_true, not_false_iff] at h
      simp [takeThru, hr, ih h]

theorem firstHit_none_of_all_none (decode : Region → Option String)
    (hdecode : ∀ r, decode r = none) (l : List Region) :
    firstHit decode l = none := by
  induction l with
  | nil => rfl
  | cons r rs ih => simp [firstHit, hdecode, jsTruthy, ih]

theorem takeThru_all_of_all_none (decode : Region → Option String)
    (hdecode : ∀ r, decode r = none) (l : List Region) :
    takeThru decode l = l := by
  induction l with
  | nil => rfl
  | cons r rs ih => simp [takeThru, hdecode, jsTruthy, ih]

/-- The search result is exactly the first truthy decode result along the
pre-order traversal `scanOrder` (whole region first, then the quadrants
top-left, top-right, bottom-left, bottom-right, each searched completely
before its successor). -/
theorem recursiveSegmentScan_eq_firstHit (decode : Region → Option String)
    (x y width height depth : Nat) :
    recursiveSegmentScan decode x y width height depth =
      firstHit decode (scanOrder x y width height depth) := by
  have key : ∀ n depth x y width height, 4 - depth ≤ n →
      recursiveSegmentScan decode x y width height depth =
        firstHit decode (scanOrder x y width height depth) := by
    intro n
    induction n with
    | zero =>
      intro depth x y width height hn
      have hguard : width < 100 ∨ height < 100 ∨ depth > 3 := by omega
      rw [recursiveSegmentScan, scanOrder]
      by_cases hres : jsTruthy (decode ⟨x, y, width, height⟩) <;>
        simp [firstHit, hres, hguard]
    | succ n ih =>
      intro depth x y width height hn
      rw [recursiveSegmentScan, scanOrder]
      by_cases hres : jsTruthy (decode ⟨x, y, width, height⟩)
      · by_cases hguard : width < 100 ∨ height < 100 ∨ depth > 3 <;>
          simp [firstHit, hres, hguard]
      · by_cases hguard : width < 100 ∨ height < 100 ∨ depth > 3
        · simp [firstHit, hres, hguard]
        · have hd : depth ≤ 3 := by
            rcases Nat.lt_or_ge 3 depth with h | h
            · exact absurd (Or.inr (Or.inr h)) hguard
            · exact h
          have hstep : 4 - (depth + 1) ≤ n := by omega
          simp only [hres, hguard, if_neg, if_false, Bool.false_eq_true,
            not_false_iff, firstHit, firstHit_append,
            ih (depth + 1) _ _ _ _ hstep]
          cases h₁ : firstHit decode
              (scanOrder x y (width / 2) (height / 2) (depth + 1)) with
          | some s₁ =>
            have htruthy := firstHit_some_truthy decode _ _ h₁
            have hne : s₁ ≠ "" := by simpa [jsTruthy] using htruthy
            simp [htruthy, hne]
          | none =>
            have ht₁ := takeThru_of_firstHit_none decode _ h₁
            simp only [h₁, jsTruthy, Bool.false_eq_true, if_false]
            cases h₂ : firstHit decode
                (scanOrder (x + width / 2) y (width / 2) (height / 2) (depth + 1)) with
            | some s₂ =>
              have htruthy := firstHit_some_truthy decode _ _ h₂
              have hne : s₂ ≠ "" := by simpa [jsTruthy] using htruthy
              simp [htruthy, hne, ht₁]
            | none =>
              have ht₂ := takeThru_of_firstHit_none decode _ h₂
              simp only [h₂, jsTruthy, Bool.false_eq_true, if_false]
              cases h₃ : firstHit decode
                  (scanOrder x (y + height / 2) (width / 2) (height / 2) (depth + 1)) with
              | some s₃ =>
                have htruthy := firstHit_some_truthy decode _ _ h₃
                have hne : s₃ ≠ "" := by simpa [jsTruthy] using htruthy
                simp [htruthy, hne, ht₁, ht₂]
              | none =>
                have ht₃ := takeThru_of_firstHit_none decode _ h₃
                simp only [h₃, jsTruthy, Bool.false_eq_true, if_false]
                cases h₄ : firstHit decode
                    (scanOrder (x + width / 2) (y + height / 2) (width / 2)
                      (height / 2) (depth + 1)) with
                | some s₄ =>
                  have htruthy := firstHit_some_truthy decode _ _ h₄
                  have hne : s₄ ≠ "" := by simpa [jsTruthy] using htruthy
                  simp [htruthy, hne, ht₁, ht₂, ht₃]
                | none =>
                  have ht₄ := takeThru_of_firstHit_none decode _ h₄
                  simp [h₄, jsTruthy, ht₁, ht₂, ht₃, ht₄]
  exact key (4 - depth) depth x y width height le_rfl

theorem scanOrder_length (x y width height depth : Nat) :
    (scanOrder x y width height depth).length = scanCount width height depth := by
  have key : ∀ n depth x y width height, 4 - depth ≤ n →
      (scanOrder x y width height depth).length = scanCount width height depth := by
    intro n
    induction n with
    | zero =>
      intro depth x y width height hn
      have hguard : width < 100 ∨ height < 100 ∨ depth > 3 := by omega
      rw [scanOrder, scanCount]
      simp [hguard]
    | succ n ih =>
      intro depth x y width height hn
      rw [scanOrder, scanCount]
      by_cases hguard : width < 100 ∨ height < 100 ∨ depth > 3
      · simp [hguard]
      · have hd : depth ≤ 3 := by
          rcases Nat.lt_or_ge 3 depth with h | h
          · exact absurd (Or.inr (Or.inr h)) hguard
          · exact h
        have hstep : 4 - (depth + 1) ≤ n := by omega
        simp only [hguard, if_neg, if_false, List.length_cons,
          List.length_append, not_false_iff,
          ih (depth + 1) _ _ _ _ hstep]
        ring
  exact key (4 - depth) depth x y width height le_rfl

theorem scanCount_le (width height depth : Nat) :
    scanCount width height depth ≤ searchTreeBound (4 - depth) := by
  have key : ∀ n depth width height, 4 - depth ≤ n →
      scanCount width height depth ≤ searchTreeBound (4 - depth) := by
    intro n
    induction n with
    | zero =>
      intro depth width height hn
      have hguard : width < 100 ∨ height < 100 ∨ depth > 3 := by omega
      rw [scanCount]
      simp only [hguard, if_pos, Nat.add_zero]
      cases h4 : 4 - depth with
      | zero => simp [searchTreeBound]
      | succ m => simp [searchTreeBound]
    | succ n ih =>
      intro depth width height hn
      rw [scanCount]
      by_cases hguard : width < 100 ∨ height < 100 ∨ depth > 3
      · simp only [hguard, if_pos, Nat.add_zero]
        cases h4 : 4 - depth with
        | zero => simp [searchTreeBound]
        | succ m => simp [searchTreeBound]
      · have hd : depth ≤ 3 := by
          rcases Nat.lt_or_ge 3 depth with h | h
          · exact absurd (Or.inr (Or.inr h)) hguard
          · exact h
        have hstep : 4 - (depth + 1) ≤ n := by omega
        have hrec := ih (depth + 1) (width / 2) (height / 2) hstep
        have h4 : 4 - depth = (4 - (depth + 1)) + 1 := by omega
        rw [h4, searchTreeBound]
        simp only [hguard, if_neg, not_false_iff]
        omega
  exact key (4 - depth) depth width height le_rfl

/-- The instrumented search agrees with the plain one and its attempt log is
exactly the prefix of the traversal order up to (and including) the first
truthy decode. -/
theorem recursiveSegmentScanTrace_spec (decode : Region → Option String)
    (x y width height depth : Nat) :
    recursiveSegmentScanTrace decode x y width height depth =
      (firstHit decode (scanOrder x y width height depth),
       takeThru decode (scanOrder x y width height depth)) := by
  have key : ∀ n depth x y width height, 4 - depth ≤ n →
      recursiveSegmentScanTrace decode x y width height depth =
        (firstHit decode (scanOrder x y width height depth),
         takeThru decode (scanOrder x y width height depth)) := by
    intro n
    induction n with
    | zero =>
      intro depth x y width height hn
      have hguard : width < 100 ∨ height < 100 ∨ depth > 3 := by omega
      rw [recursiveSegmentScanTrace, scanOrder]
      by_cases hres : jsTruthy (decode ⟨x, y, width, height⟩) <;>
        simp [firstHit, takeThru, hres, hguard]
    | succ n ih =>
      intro depth x y width height hn
      rw [recursiveSegmentScanTrace, scanOrder]
      by_cases hres : jsTruthy (decode ⟨x, y, width, height⟩)
      · by_cases hguard : width < 100 ∨ height < 100 ∨ depth > 3 <;>
          simp [firstHit, takeThru, hres, hguard]
      · by_cases hguard : width < 100 ∨ height < 100 ∨ depth > 3
        · simp [firstHit, takeThru, hres, hguard]
        · have hstep : 4 - (depth + 1) ≤ n := by omega
          simp only [hres, hguard, if_neg, if_false, Bool.false_eq_true,
            not_false_iff, firstHit, takeThru, firstHit_append, takeThru_append,
            ih (depth + 1) _ _ _ _ hstep]
          cases h₁ : firstHit decode
              (scanOrder x y (width / 2) (height / 2) (depth + 1)) with
          | some s₁ =>
            have htruthy := firstHit_some_truthy decode _ _ h₁
            have hne : s₁ ≠ "" := by simpa [jsTruthy] using htruthy
            simp [htruthy, hne]
          | none =>
            have ht₁ := takeThru_of_firstHit_none decode _ h₁
            simp only [h₁, jsTruthy, Bool.false_eq_true, if_false]
            cases h₂ : firstHit decode
                (scanOrder (x + width / 2) y (width / 2) (height / 2) (depth + 1)) with
            | some s₂ =>
              have htruthy := firstHit_some_truthy decode _ _ h₂
              have hne : s₂ ≠ "" := by simpa [jsTruthy] using htruthy
              simp [htruthy, hne, ht₁]
            | none =>
              have ht₂ := takeThru_of_firstHit_none decode _ h₂
              simp only [h₂, jsTruthy, Bool.false_eq_true, if_false]
              cases h₃ : firstHit decode
                  (scanOrder x (y + height / 2) (width / 2) (height / 2) (depth + 1)) with
              | some s₃ =>
                have htruthy := firstHit_some_truthy decode _ _ h₃
                have hne : s₃ ≠ "" := by simpa [jsTruthy] using htruthy
                simp [htruthy, hne, ht₁, ht₂]
              | none =>
                have ht₃ := takeThru_of_firstHit_none decode _ h₃
                simp only [h₃, jsTruthy, Bool.false_eq_true, if_false]
                cases h₄ : firstHit decode
                    (scanOrder (x + width / 2) (y + height / 2) (width / 2)
                      (height / 2) (depth + 1)) with
                | some s₄ =>
                  have htruthy := firstHit_some_truthy decode _ _ h₄
                  have hne : s₄ ≠ "" := by simpa [jsTruthy] using htruthy
                  simp [htruthy, hne, ht₁, ht₂, ht₃]
                | none =>
                  have ht₄ := takeThru_of_firstHit_none decode _ h₄
                  simp [h₄, jsTruthy, ht₁, ht₂, ht₃, ht₄]
  exact key (4 - depth) depth x y width height le_rfl

theorem recursiveSegmentScan_all_none (decode : Region → Option String)
    (hdecode : ∀ r, decode r = none) (x y width height depth : Nat) :
    recursiveSegmentScan decode x y width height depth = none := by
  rw [recursiveSegmentScan_eq_firstHit]
  exact firstHit_none_of_all_none decode hdecode _

end PDFScannerTabs

namespace PDFInvoiceScannerTsx

theorem scanPagesFrom_spec (scanPage : Nat → Except String String) :
    ∀ (remaining pageNum : Nat),
      scanPagesFrom scanPage pageNum remaining =
        ((match (List.range' pageNum remaining).find? (pageHit scanPage) with
          | some p => .ok p
          | none => .error "No QR code found in any page"),
         attemptedPages (pageHit scanPage) (List.range' pageNum remaining)) := by
  intro remaining
  induction remaining with
  | zero => intro pageNum; simp [scanPagesFrom, attemptedPages]
  | succ n ih =>
    intro pageNum
    rw [List.range'_succ]
    by_cases hp : pageHit scanPage pageNum
    · cases hsp : scanPage pageNum with
      | error e => simp [pageHit, hsp] at hp
      | ok msg =>
        have hlen : msg.length > 0 := by
          have := hp
          rw [pageHit, hsp] at this
          simpa using this
        simp [scanPagesFrom, hsp, hlen, List.find?, attemptedPages, hp,
          pageHit]
    · have hfind : List.find? (pageHit scanPage)
          (pageNum :: List.range' (pageNum + 1) n) =
          List.find? (pageHit scanPage) (List.range' (pageNum + 1) n) := by
        simp [List.find?, Bool.of_not_eq_true hp]
      cases hsp : scanPage pageNum with
      | error e =>
        simp only [scanPagesFrom, hsp, hfind, ih (pageNum + 1),
          attemptedPages, hp, if_neg, Bool.false_eq_true, not_false_iff]
      | ok msg =>
        have hlen : ¬ msg.length > 0 := by
          intro hc
          exact hp (by simp [pageHit, hsp, hc])
        simp only [scanPagesFrom, hsp, hlen, hfind, ih (pageNum + 1),
          attemptedPages, hp, if_neg, Bool.false_eq_true, not_false_iff]

end PDFInvoiceScannerTsx

namespace ImageProcessing

theorem luminanceAt_eq_bt601 (img : Image) (x y : Nat) :
    luminanceAt img x y = bt601Luminance (img x y 0) (img x y 1) (img x y 2) := by
  unfold luminanceAt bt601Luminance
  ring

theorem adaptiveThreshold_channels_eq (img : Image) (x y : Nat) :
    adaptiveThreshold img x y 0 = adaptiveThreshold img x y 1 ∧
    adaptiveThreshold img x y 1 = adaptiveThreshold img x y 2 := by
  unfold adaptiveThreshold
  norm_num

end ImageProcessing

/-- C4 (amended: the search short-circuits on the first truthy — non-null AND
nonempty — decode result; a `some ""` answer is skipped like a `null`): the
result of `recursiveSegmentScan` is the first truthy decode result along the
pre-order traversal `scanOrder` (whole region first, then the quadrants
top-left, top-right, bottom-left, bottom-right, each subtree exhausted
before its successor), and the regions actually attempted are exactly the
prefix of that traversal up to and including the hit. -/
theorem C4_first_truthy_wins (decode : Region → Option String)
    (x y width height depth : Nat) :
    PDFScannerTabs.recursiveSegmentScanTrace decode x y width height depth =
      (PDFScannerTabs.firstHit decode
        (PDFScannerTabs.scanOrder x y width height depth),
       PDFScannerTabs.takeThru decode
        (PDFScannerTabs.scanOrder x y width height depth)) ∧
    PDFScannerTabs.recursiveSegmentScan decode x y width height depth =
      PDFScannerTabs.firstHit decode
        (PDFScannerTabs.scanOrder x y width height depth) :=
  ⟨PDFScannerTabs.recursiveSegmentScanTrace_spec decode x y width height depth,
   PDFScannerTabs.recursiveSegmentScan_eq_firstHit decode x y width height depth⟩

/-- C4, counterexample to the claim as stated: with a decode stub whose first
NON-NULL answer in traversal order is `some ""` (on the whole region), the
search does not return that first-in-order payload; it goes on to attempt
later regions and returns the top-left quadrant's `"A"`. -/
theorem C4_counterexample :
    decodeEmptyThenHit ⟨0, 0, 200, 200⟩ = some "" ∧
    PDFScannerTabs.recursiveSegmentScan decodeEmptyThenHit 0 0 200 200 0 =
      some "A" := by
  constructor
  · rfl
  · rw [PDFScannerTabs.recursiveSegmentScan]
    simp only [decodeEmptyThenHit, jsTruthy]
    norm_num
    rw [PDFScannerTabs.recursiveSegmentScan]
    simp [decodeEmptyThenHit, jsTruthy]

/-- C1 (amended: the bound is 341, not 85): for every initial region and
every decode function returning null on every attempt, the recursive
quadrant search terminates (it is a total function of this development) and
makes at most `1 + 4 + 16 + 64 + 256 = 341` decode attempts: the guard
`depth > 3` is tested only after the attempt at the current depth, so
subdivision still happens AT depth 3 and the deepest attempts sit at depth
4. -/
theorem C1_bounded_attempts (decode : Region → Option String)
    (hdecode : ∀ r, decode r = none) (x y width height : Nat) :
    (PDFScannerTabs.recursiveSegmentScanTrace decode x y width height 0).2.length ≤
      341 := by
  rw [PDFScannerTabs.recursiveSegmentScanTrace_spec]
  simp only
  rw [PDFScannerTabs.takeThru_all_of_all_none decode hdecode,
    PDFScannerTabs.scanOrder_length]
  have h := PDFScannerTabs.scanCount_le width height 0
  have hb : PDFScannerTabs.searchTreeBound (4 - 0) = 341 := by
    norm_num [PDFScannerTabs.searchTreeBound]
  omega

/-- C1, witness: the hypotheses are satisfiable — the always-null decode on a
50×50 region attempts within the bound. -/
theorem C1_witness :
    (∀ r : Region, (fun _ : Region => (none : Option String)) r = none) ∧
    (PDFScannerTabs.recursiveSegmentScanTrace (fun _ : Region => none)
      0 0 50 50 0).2.length ≤ 341 :=
  ⟨fun _ => rfl, C1_bounded_attempts (fun _ => none) (fun _ => rfl) 0 0 50 50⟩

/-- C1, counterexample to the claimed bound of 85: on an 800×800 initial
region the always-null decode triggers 341 attempts (1 at depth 0, 4 at
depth 1, 16 at depth 2, 64 at depth 3 and 256 at depth 4, since the
`depth > 3` stop is only checked after the attempt and regions stay at or
above 100×100 through depth 3). -/
theorem C1_counterexample :
    (PDFScannerTabs.recursiveSegmentScanTrace (fun _ : Region => none)
      0 0 800 800 0).2.length = 341 ∧
    ¬ ((PDFScannerTabs.recursiveSegmentScanTrace (fun _ : Region => none)
      0 0 800 800 0).2.length ≤ 85) := by
  have hlen : (PDFScannerTabs.recursiveSegmentScanTrace (fun _ : Region => none)
      0 0 800 800 0).2.length = 341 := by
    rw [PDFScannerTabs.recursiveSegmentScanTrace_spec]
    simp only
    rw [PDFScannerTabs.takeThru_all_of_all_none _ (fun _ => rfl),
      PDFScannerTabs.scanOrder_length]
    rw [PDFScannerTabs.scanCount]
    norm_num
    rw [PDFScannerTabs.scanCount]
    norm_num
    rw [PDFScannerTabs.scanCount]
    norm_num
    rw [PDFScannerTabs.scanCount]
    norm_num
    rw [PDFScannerTabs.scanCount]
    norm_num
  exact ⟨hlen, by omega⟩

/-- C3 (amended: the half-width and half-height are floor halves, but all
FOUR quadrants get the size `halfWidth × halfHeight` — the odd remainder
column/row is dropped, not assigned to the second half): the four quadrants
together cover exactly the pixels of `[x, x + 2⌊width/2⌋) × [y, y +
2⌊height/2⌋)`, i.e. the parent region minus its last column (resp. row)
when the width (resp. height) is odd; the cover is exact iff both dimensions
are even. -/
theorem C3_quadrant_cover (x y width height px py : Nat) :
    (∃ s ∈ PDFScannerTabs.segments x y width height,
        PDFScannerTabs.containsPoint s px py) ↔
      (x ≤ px ∧ px < x + 2 * (width / 2) ∧ y ≤ py ∧ py < y + 2 * (height / 2)) := by
  simp only [PDFScannerTabs.segments, PDFScannerTabs.containsPoint,
    List.mem_cons, List.mem_singleton, List.not_mem_nil, or_false,
    exists_eq_or_imp, exists_eq_left]
  omega

/-- C3, counterexample to the claim as stated: for the 101×100 region at the
origin, the pixel in the last column (coordinate 100) lies in the parent
region but in none of the four quadrants — the remainder column is not
assigned to the second half, so the quadrants do not cover the parent. -/
theorem C3_counterexample :
    PDFScannerTabs.containsPoint ⟨0, 0, 101, 100⟩ 100 0 ∧
      ∀ s ∈ PDFScannerTabs.segments 0 0 101 100,
        ¬ PDFScannerTabs.containsPoint s 100 0 := by
  decide

/-- C2 (amended: enhancement failures ARE silently swallowed — the body of
`scanSegment` / `scanFullImage` sits in a catch-all returning `null`, so a
rejecting `preprocessImage` is indistinguishable from a clean miss): when
the enhancement step rejects on every region, every decode attempt yields
`null` and the orchestrator reports the "No QR code found" outcome, not a
`DecoderFault`-class one. -/
theorem C2_enhancement_failure_swallowed {α : Type}
    (e : Region → String) (scanFile : α → Except String String) (w h : Nat) :
    (∀ r, PDFScannerTabs.scanSegment
        (fun r => Except.error (e r)) scanFile r = none) ∧
    PDFScannerTabs.handleFileUpload (Except.ok ⟨w, h⟩)
        (fun r => Except.error (e r)) scanFile =
      PDFScannerTabs.DecodeOutcome.noCodeFound := by
  constructor
  · intro r
    rfl
  · have hnone := PDFScannerTabs.recursiveSegmentScan_all_none
      (PDFScannerTabs.scanSegment (fun r => Except.error (e r)) scanFile)
      (fun _ => rfl) 0 0 w h 0
    simp [PDFScannerTabs.handleFileUpload, PDFScannerTabs.scanFullImage,
      PDFScannerTabs.scanSegment, hnone, jsTruthy]

/-- C2, counterexample to the claim as stated: the enhancement step throws a
canvas error on every attempt while the decoder itself would succeed, yet
the outcome is the plain `noCodeFound`, not a `DecoderFault`-class outcome
distinct from it. -/
theorem C2_counterexample :
    PDFScannerTabs.handleFileUpload (Except.ok ⟨50, 50⟩)
        (fun _ : Region =>
          (Except.error "Could not create canvas context" : Except String Region))
        (fun _ : Region => (Except.ok "payload" : Except String String)) =
      PDFScannerTabs.DecodeOutcome.noCodeFound ∧
    PDFScannerTabs.DecodeOutcome.noCodeFound ≠
      PDFScannerTabs.DecodeOutcome.decoderFault := by
  constructor
  · have hnone := PDFScannerTabs.recursiveSegmentScan_all_none
      (PDFScannerTabs.scanSegment
        (fun _ : Region =>
          (Except.error "Could not create canvas context" : Except String Region))
        (fun _ : Region => (Except.ok "payload" : Except String String)))
      (fun _ => rfl) 0 0 50 50 0
    simp [PDFScannerTabs.handleFileUpload, PDFScannerTabs.scanFullImage,
      PDFScannerTabs.scanSegment, hnone, jsTruthy]
  · simp

/-- C9 (amended: pages are iterated strictly in order from page 1 and
iteration stops at the first page whose single whole-page scan yields a
nonempty payload, with the `"No QR code found in any page"` error thrown
when all pages exhaust — but each page receives exactly ONE whole-page
decode attempt; no region search or recursive subdivision is run on a
page): the loop of `convertPDFToImage` returns the first page of `1 ..
totalPages` whose scan hits, and its attempt log is the ordered prefix of
the page list through that first hit. -/
theorem C9_page_iteration (totalPages : Nat)
    (scanPage : Nat → Except String String) :
    PDFInvoiceScannerTsx.convertPDFToImage totalPages scanPage =
      ((match (List.range' 1 totalPages).find?
            (PDFInvoiceScannerTsx.pageHit scanPage) with
        | some p => Except.ok p
        | none => Except.error "No QR code found in any page"),
       PDFInvoiceScannerTsx.attemptedPages
         (PDFInvoiceScannerTsx.pageHit scanPage) (List.range' 1 totalPages)) :=
  PDFInvoiceScannerTsx.scanPagesFrom_spec scanPage totalPages 1

/-- C9, counterexample to the claim as stated: on a 2-page document whose
scans all fail, page 1 is attempted exactly once before page 2 is attempted,
whereas a full region search run to exhaustion on a page (e.g. an 800×800
canvas) comprises 341 region attempts — the per-page "full region search
including all recursive subdivisions" does not happen. -/
theorem C9_counterexample :
    (PDFInvoiceScannerTsx.convertPDFToImage 2
      (fun _ => Except.error "NotFoundException")).2 = [1, 2] ∧
    ((PDFInvoiceScannerTsx.convertPDFToImage 2
      (fun _ => Except.error "NotFoundException")).2).count 1 = 1 ∧
    (PDFScannerTabs.scanOrder 0 0 800 800 0).length = 341 := by
  refine ⟨rfl, rfl, ?_⟩
  rw [PDFScannerTabs.scanOrder_length]
  rw [PDFScannerTabs.scanCount]
  norm_num
  rw [PDFScannerTabs.scanCount]
  norm_num
  rw [PDFScannerTabs.scanCount]
  norm_num
  rw [PDFScannerTabs.scanCount]
  norm_num
  rw [PDFScannerTabs.scanCount]
  norm_num

/-- C5 (amended: the threshold of `imageProcessing.ts` does binarize on the
fixed BT.601 luminance, but the `applyAdaptiveThreshold` variant of the
repository grayscales every pixel with the UNWEIGHTED average
`(R + G + B) / 3`, which differs from the BT.601 weighting): the core
threshold's output at each color channel is the BT.601 binarization of the
pixel, while the variant's grayscale pass writes `(255+0+0)/3 = 85` on a
pure red pixel where BT.601 gives `76.245`. -/
theorem C5_luminance_weighting :
    (∀ (img : ImageProcessing.Image) (x y c : Nat),
      ImageProcessing.adaptiveThreshold img x y c =
        if c < 3 then
          (if bt601Luminance (img x y 0) (img x y 1) (img x y 2) > 160
           then 255 else 0)
        else img x y c) ∧
    Part006.toGrayscaleAvg redImage 0 0 0 = 85 ∧
    bt601Luminance 255 0 0 = 76.245 := by
  refine ⟨fun img x y c => ?_, by norm_num [Part006.toGrayscaleAvg, redImage],
    by norm_num [bt601Luminance]⟩
  rw [ImageProcessing.adaptiveThreshold,
    ImageProcessing.luminanceAt_eq_bt601]

/-- C5, counterexample to the claim as stated: the grayscale pass of the
variant `applyAdaptiveThreshold` computes the unweighted average — on a pure
red pixel it writes 85, which is not the BT.601 luminance 76.245 of that
pixel. -/
theorem C5_counterexample :
    Part006.toGrayscaleAvg redImage 0 0 0 = 85 ∧
    bt601Luminance (redImage 0 0 0) (redImage 0 0 1) (redImage 0 0 2) ≠ 85 := by
  constructor
  · norm_num [Part006.toGrayscaleAvg, redImage]
  · norm_num [bt601Luminance, redImage]

theorem Part008.jsRound_mul_div_le (a b c : Nat) (hbc : b ≤ c) (hc : 0 < c) :
    ((Part008.jsRound ((a * b : ℚ) / c)).toNat : Nat) ≤ a := by
  rw [Int.toNat_le]
  unfold Part008.jsRound
  have hcq : (0 : ℚ) < c := by exact_mod_cast hc
  have hq : ((a : ℚ) * b / c) ≤ a := by
    rw [div_le_iff₀ hcq]
    have hb : (b : ℚ) ≤ c := by exact_mod_cast hbc
    have ha : (0 : ℚ) ≤ a := by positivity
    nlinarith
  have hlt : ⌊(a : ℚ) * b / c + 1/2⌋ < (a : ℤ) + 1 := by
    rw [Int.floor_lt]
    push_cast
    linarith
  omega

/-- C6 (amended: the downscale stage behaves as claimed — it only shrinks,
preserves the aspect ratio by rounding, and puts the larger dimension at the
2048 ceiling — and the variant without a minimum never upscales; but the
`MIN_DIMENSION = 256` variant then raises BOTH dimensions to at least 256
with `Math.max`, blindly upscaling any smaller image): dimensions at most
2048 pass through unchanged; above the ceiling the output's larger dimension
is exactly 2048 and neither dimension grows; and the `MIN_DIMENSION` variant
is exactly the no-minimum computation followed by the 256 clamp. -/
theorem C6_rescale_only_downscales (w h : Nat) :
    (max w h ≤ 2048 → Part009.computeDims w h = (w, h)) ∧
    (max w h > 2048 →
      max (Part009.computeDims w h).1 (Part009.computeDims w h).2 = 2048 ∧
      (Part009.computeDims w h).1 ≤ w ∧ (Part009.computeDims w h).2 ≤ h) ∧
    Part008.computeDims w h =
      (max (Part009.computeDims w h).1 256, max (Part009.computeDims w h).2 256) := by
  refine ⟨?_, ?_, ?_⟩
  · intro hmax
    have hw : w ≤ 2048 := le_trans (le_max_left w h) hmax
    have hh : h ≤ 2048 := le_trans (le_max_right w h) hmax
    unfold Part009.computeDims
    by_cases hwh : w > h <;> simp [hwh] <;> omega
  · intro hmax
    have hor : w > 2048 ∨ h > 2048 := by
      rcases lt_max_iff.mp hmax with hcase | hcase
      · exact Or.inl hcase
      · exact Or.inr hcase
    unfold Part009.computeDims
    by_cases hwh : w > h
    · have hw : w > 2048 := by omega
      have hr2048 : ((Part008.jsRound ((h * 2048 : ℚ) / w)).toNat : Nat) ≤ 2048 := by
        have := Part008.jsRound_mul_div_le 2048 h w (by omega) (by omega)
        rw [mul_comm] at this
        exact this
      have hrh : ((Part008.jsRound ((h * 2048 : ℚ) / w)).toNat : Nat) ≤ h :=
        Part008.jsRound_mul_div_le h 2048 w (by omega) (by omega)
      simp only [hwh, hw, if_pos]
      refine ⟨max_eq_left hr2048, by omega, hrh⟩
    · have hh : h > 2048 := by omega
      have hr2048 : ((Part008.jsRound ((w * 2048 : ℚ) / h)).toNat : Nat) ≤ 2048 := by
        have := Part008.jsRound_mul_div_le 2048 w h (by omega) (by omega)
        rw [mul_comm] at this
        exact this
      have hrw : ((Part008.jsRound ((w * 2048 : ℚ) / h)).toNat : Nat) ≤ w :=
        Part008.jsRound_mul_div_le w 2048 h (by omega) (by omega)
      simp only [hwh, hh, if_pos, if_neg, not_false_iff]
      refine ⟨max_eq_right hr2048, hrw, by omega⟩
  · unfold Part008.computeDims Part009.computeDims
    by_cases hwh : w > h <;> by_cases hw : w > 2048 <;> by_cases hh : h > 2048 <;>
      simp [hwh, hw, hh]

/-- C6, witness: the theorem's hypotheses hold at concrete inputs — a
1000×500 image is untouched, a 4096×1024 image is brought to the 2048
ceiling without either dimension growing. -/
theorem C6_witness :
    (max 1000 500 ≤ 2048 ∧ Part009.computeDims 1000 500 = (1000, 500)) ∧
    (max 4096 1024 > 2048 ∧
      max (Part009.computeDims 4096 1024).1 (Part009.computeDims 4096 1024).2 = 2048 ∧
      (Part009.computeDims 4096 1024).1 ≤ 4096 ∧
      (Part009.computeDims 4096 1024).2 ≤ 1024) :=
  ⟨⟨by norm_num, (C6_rescale_only_downscales 1000 500).1 (by norm_num)⟩,
   ⟨by norm_num, (C6_rescale_only_downscales 4096 1024).2.1 (by norm_num)⟩⟩

/-- C6, counterexample to "never blindly upscaled": the `MIN_DIMENSION`
variant turns a 100×50 image into 256×256 — both dimensions upscaled (and
the aspect ratio destroyed). -/
theorem C6_counterexample :
    Part008.computeDims 100 50 = (256, 256) ∧ 100 < 256 ∧ 50 < 256 := by
  refine ⟨?_, by norm_num, by norm_num⟩
  unfold Part008.computeDims
  norm_num

/-- C8: thresholding is idempotent — applying `adaptiveThreshold` twice is
bit-identical to applying it once on every buffer — and on an already pure
black/white buffer a threshold-enabled pass is bit-identical to the input
(the BT.601 weights sum to exactly 1, so the luminance of a monochrome
pixel is its value). -/
theorem C8_threshold_idempotent :
    (∀ img : ImageProcessing.Image,
      ImageProcessing.adaptiveThreshold (ImageProcessing.adaptiveThreshold img) =
        ImageProcessing.adaptiveThreshold img) ∧
    (∀ img : ImageProcessing.Image, pureBlackWhite img →
      ImageProcessing.adaptiveThreshold img = img) := by
  constructor
  · intro img
    funext x y c
    by_cases hc : c < 3
    · by_cases hl : ImageProcessing.luminanceAt img x y > 160
      · have hch : ∀ c', c' < 3 →
            ImageProcessing.adaptiveThreshold img x y c' = 255 := by
          intro c' hc'
          simp [ImageProcessing.adaptiveThreshold, hc', hl]
        have hlumT : ImageProcessing.luminanceAt
            (ImageProcessing.adaptiveThreshold img) x y = 255 := by
          unfold ImageProcessing.luminanceAt
          rw [hch 0 (by norm_num), hch 1 (by norm_num), hch 2 (by norm_num)]
          norm_num
        simp only [ImageProcessing.adaptiveThreshold, hc, if_pos, hlumT, hl]
        norm_num
      · have hch : ∀ c', c' < 3 →
            ImageProcessing.adaptiveThreshold img x y c' = 0 := by
          intro c' hc'
          simp [ImageProcessing.adaptiveThreshold, hc', hl]
        have hlumT : ImageProcessing.luminanceAt
            (ImageProcessing.adaptiveThreshold img) x y = 0 := by
          unfold ImageProcessing.luminanceAt
          rw [hch 0 (by norm_num), hch 1 (by norm_num), hch 2 (by norm_num)]
          norm_num
        simp [ImageProcessing.adaptiveThreshold, hc, hlumT, hl]
    · simp [ImageProcessing.adaptiveThreshold, hc]
  · intro img hbw
    funext x y c
    obtain ⟨h01, h12, h0⟩ := hbw x y
    by_cases hc : c < 3
    · have hlum : ImageProcessing.luminanceAt img x y = img x y 0 := by
        unfold ImageProcessing.luminanceAt
        rw [← h01, ← h12, ← h01]
        ring
      have hchan : img x y c = img x y 0 := by
        interval_cases c
        · rfl
        · exact h01.symm
        · rw [← h12, ← h01]
      rcases h0 with hz | ho
      · simp [ImageProcessing.adaptiveThreshold, hc, hlum, hz, hchan]
      · simp only [ImageProcessing.adaptiveThreshold, hc, if_pos, hlum, ho, hchan]
        norm_num
    · simp [ImageProcessing.adaptiveThreshold, hc]

/-- C8, witness: the all-white buffer is pure black/white and is a fixed
point of the threshold. -/
theorem C8_witness :
    pureBlackWhite whiteImage ∧
    ImageProcessing.adaptiveThreshold whiteImage = whiteImage :=
  ⟨fun _ _ => ⟨rfl, rfl, Or.inr rfl⟩,
   C8_threshold_idempotent.2 whiteImage (fun _ _ => ⟨rfl, rfl, Or.inr rfl⟩)⟩

/-- C10: every filter of the `preprocessImage` chain writes only the R, G
and B bytes — the alpha byte of every pixel is unchanged by each filter and
hence by the whole chain. -/
theorem C10_alpha_preserved (powf sqrtf : ℚ → ℚ) (width height : Nat)
    (img : ImageProcessing.Image) (x y : Nat) :
    ImageProcessing.reduceNoise width height img x y 3 = img x y 3 ∧
    ImageProcessing.enhanceContrast powf img x y 3 = img x y 3 ∧
    ImageProcessing.applyEdgeDetection sqrtf width height img x y 3 = img x y 3 ∧
    ImageProcessing.adaptiveThreshold img x y 3 = img x y 3 ∧
    ImageProcessing.preprocessPixels powf sqrtf width height img x y 3 =
      img x y 3 := by
  refine ⟨?_, ?_, ?_, ?_, ?_⟩ <;>
    simp [ImageProcessing.preprocessPixels, ImageProcessing.reduceNoise,
      ImageProcessing.enhanceContrast, ImageProcessing.applyEdgeDetection,
      ImageProcessing.adaptiveThreshold]

/-- C7: for inputs with bytes in [0,255] (and the host primitives behaving
as `Math.pow` on [0,1] and `Math.sqrt` on nonnegatives do), every byte
written by the enhancement filters lies in [0,255]: the blur is a convex
combination, the gamma map stays inside [0,1] before rescaling, the Sobel
magnitude is explicitly capped at 255 and nonnegative, the threshold writes
only 0 or 255, and the sharpen convolution goes through the clamped byte
store — no value wraps around. -/
theorem C7_output_range (powf sqrtf : ℚ → ℚ) (width height : Nat)
    (img : ImageProcessing.Image)
    (hpow : ∀ q : ℚ, 0 ≤ q → q ≤ 1 → 0 ≤ powf q ∧ powf q ≤ 1)
    (hsqrt : ∀ q : ℚ, 0 ≤ q → 0 ≤ sqrtf q)
    (himg : ∀ x y c, 0 ≤ img x y c ∧ img x y c ≤ 255) :
    ∀ x y c,
      (0 ≤ ImageProcessing.reduceNoise width height img x y c ∧
        ImageProcessing.reduceNoise width height img x y c ≤ 255) ∧
      (0 ≤ ImageProcessing.enhanceContrast powf img x y c ∧
        ImageProcessing.enhanceContrast powf img x y c ≤ 255) ∧
      (0 ≤ ImageProcessing.applyEdgeDetection sqrtf width height img x y c ∧
        ImageProcessing.applyEdgeDetection sqrtf width height img x y c ≤ 255) ∧
      (0 ≤ ImageProcessing.adaptiveThreshold img x y c ∧
        ImageProcessing.adaptiveThreshold img x y c ≤ 255) ∧
      (0 ≤ Part006.applyConvolution Part006.sharpenKernel width height img x y c ∧
        Part006.applyConvolution Part006.sharpenKernel width height img x y c ≤ 255) := by
  intro x y c
  refine ⟨?_, ?_, ?_, ?_, ?_⟩
  · unfold ImageProcessing.reduceNoise
    split_ifs with hguard
    · unfold ImageProcessing.reduceNoiseAt
      obtain ⟨a0, b0⟩ := himg (x - 1) (y - 1) c
      obtain ⟨a1, b1⟩ := himg x (y - 1) c
      obtain ⟨a2, b2⟩ := himg (x + 1) (y - 1) c
      obtain ⟨a3, b3⟩ := himg (x - 1) y c
      obtain ⟨a4, b4⟩ := himg x y c
      obtain ⟨a5, b5⟩ := himg (x + 1) y c
      obtain ⟨a6, b6⟩ := himg (x - 1) (y + 1) c
      obtain ⟨a7, b7⟩ := himg x (y + 1) c
      obtain ⟨a8, b8⟩ := himg (x + 1) (y + 1) c
      constructor <;> linarith
    · exact himg x y c
  · unfold ImageProcessing.enhanceContrast
    split_ifs with hc
    · obtain ⟨ha, hb⟩ := himg x y c
      have h01 : 0 ≤ img x y c / 255 := by positivity
      have h11 : img x y c / 255 ≤ 1 := by
        rw [div_le_one (by norm_num)]
        exact hb
      obtain ⟨hp0, hp1⟩ := hpow _ h01 h11
      constructor
      · exact mul_nonneg hp0 (by norm_num)
      · nlinarith
    · exact himg x y c
  · unfold ImageProcessing.applyEdgeDetection
    split_ifs with hguard
    · have hs : 0 ≤ sqrtf
          (ImageProcessing.sobelGradX img x y * ImageProcessing.sobelGradX img x y +
           ImageProcessing.sobelGradY img x y * ImageProcessing.sobelGradY img x y) :=
        hsqrt _ (add_nonneg (mul_self_nonneg _) (mul_self_nonneg _))
      simp only
      split_ifs with hm
      · norm_num
      · exact ⟨hs, not_lt.mp hm⟩
    · exact himg x y c
  · unfold ImageProcessing.adaptiveThreshold
    split_ifs
    · norm_num
    · norm_num
    · exact himg x y c
  · unfold Part006.applyConvolution
    split_ifs with hguard
    · unfold Part006.clampByte
      exact ⟨le_max_left 0 _, max_le (by norm_num) (min_le_left _ _)⟩
    · exact himg x y c

/-- C7, witness: the hypotheses are satisfiable with the identity standing
in for the host primitives and the all-zero buffer; the conclusion then
holds at pixel (1,1), channel 0. -/
theorem C7_witness :
    (∀ q : ℚ, 0 ≤ q → q ≤ 1 → 0 ≤ id q ∧ id q ≤ 1) ∧
    (∀ q : ℚ, 0 ≤ q → 0 ≤ id q) ∧
    (∀ x y c, 0 ≤ zeroImage x y c ∧ zeroImage x y c ≤ 255) ∧
    ((0 ≤ ImageProcessing.reduceNoise 3 3 zeroImage 1 1 0 ∧
        ImageProcessing.reduceNoise 3 3 zeroImage 1 1 0 ≤ 255) ∧
      (0 ≤ ImageProcessing.enhanceContrast id zeroImage 1 1 0 ∧
        ImageProcessing.enhanceContrast id zeroImage 1 1 0 ≤ 255) ∧
      (0 ≤ ImageProcessing.applyEdgeDetection id 3 3 zeroImage 1 1 0 ∧
        ImageProcessing.applyEdgeDetection id 3 3 zeroImage 1 1 0 ≤ 255) ∧
      (0 ≤ ImageProcessing.adaptiveThreshold zeroImage 1 1 0 ∧
        ImageProcessing.adaptiveThreshold zeroImage 1 1 0 ≤ 255) ∧
      (0 ≤ Part006.applyConvolution Part006.sharpenKernel 3 3 zeroImage 1 1 0 ∧
        Part006.applyConvolution Part006.sharpenKernel 3 3 zeroImage 1 1 0 ≤ 255)) :=
  ⟨fun _ h0 h1 => ⟨h0, h1⟩, fun _ h0 => h0,
   fun _ _ _ => by norm_num [zeroImage],
   C7_output_range id id 3 3 zeroImage (fun _ h0 h1 => ⟨h0, h1⟩)
     (fun _ h0 => h0) (fun _ _ _ => by norm_num [zeroImage]) 1 1 0⟩
